import Mathlib

/-!
Shallow embedding of the index subsystem of the `neo4j` Go client
(`index.go`), together with theorems settling the spec claims about it.

Modelling conventions:
* The HTTP transport (`restclient.Do`) is modelled by passing each
  operation the outcome of its single round trip: either a transport
  failure carrying an opaque error value, or a reply carrying the raw
  status code and the decoded response body (of the type the operation
  would decode into, had it wired a `Result` field).
* Go's multiple return values `(x, err)` are modelled as pairs with an
  `Option Err` second component; a `nil` pointer result is `Option.none`.
* A Go runtime panic (nil-pointer dereference) is modelled by the
  `GoResult.panics` constructor; operations that can panic return
  `GoResult`.
* Helpers of the repository that live outside `index.go` (`join`,
  `Node`), and behaviour of external libraries the source relies on
  (`net/url.ParseRequestURI`, `encoding/json` struct tags), are modelled
  from their documented/specified behaviour; each such definition says so
  in its doc comment.
-/

set_option linter.unusedVariables false

namespace Neo4j

/-- Modelled from the spec: the repository's `join` helper (not in
`index.go`) concatenates URI fragments with exactly one `/` separator,
dropping fragments that are the empty string. -/
def join : List String → String
  | [] => ""
  | f :: rest =>
    if f = "" then join rest
    else
      let r := join rest
      if r = "" then f else f ++ "/" ++ r

/-- Characters allowed after the first character of a URI scheme. -/
def schemeChar (c : Char) : Bool :=
  c.isAlpha || c.isDigit || c = '+' || c = '-' || c = '.'

/-- Whether the characters form a valid URI scheme followed by a colon
(the characters up to the first `:` must be scheme characters and a
colon must occur). -/
def schemeColon : List Char → Bool
  | [] => false
  | ':' :: _ => true
  | ch :: cs => schemeChar ch && schemeColon cs

/-- Modelled from the `net/url` documentation: `ParseRequestURI` accepts
only absolute URLs (a scheme starting with a letter, then a colon) or
absolute paths (starting with `/`), and rejects the empty string. -/
def validRequestURI (s : String) : Bool :=
  match s.toList with
  | [] => false
  | '/' :: _ => true
  | ch :: cs => ch.isAlpha && schemeColon cs

/-- Modelled from the `net/url` documentation: returns the parsed URL
(identified with its string form) on success, `none` on failure — in Go
the failure case yields a `nil` `*url.URL` alongside the error. -/
def parseRequestURI (s : String) : Option String :=
  if validRequestURI s then some s else none

/-- Result of running a piece of Go code that may panic. -/
inductive GoResult (α : Type) where
  | panics : GoResult α
  | ok : α → GoResult α
deriving Repr, DecidableEq

/-- Outcome of the single `restclient.Do` round trip of an operation:
either a transport-level failure (the call never completed), or a reply
with a raw status code and the response body decoded as `β`. -/
inductive TOutcome (β : Type) where
  | transportErr : String → TOutcome β
  | reply : Nat → β → TOutcome β
deriving Repr, DecidableEq

/-- The typed errors an operation can return (spec section 7).
`transport` carries the transport error unchanged; `unexpectedStatus` is
the error `restclient` itself returns when an `ExpectedStatus` was
declared and the reply's status differs; `parseErr` is a `net/url`
parse error returned before any network call. -/
inductive Err where
  | transport : String → Err
  | unexpectedStatus : Nat → Err
  | parseErr : String → Err
  | notFound : Err
  | badResponse : Err
deriving Repr, DecidableEq

/-- Embeds `indexResponse` from `index.go`; Go's JSON decoding leaves a
field at its zero value (the empty string) when the server omits it. -/
structure indexResponse where
  HrefTemplate : String := ""
  Provider : String := ""
  IndexType : String := ""
  LowerCase : String := ""
deriving Repr, DecidableEq

/-- Embeds the `index` struct from `index.go`. The `db *Database`
back-pointer is omitted: it only carries the transport handle, which the
model passes explicitly as each operation's `TOutcome`. Go's `new(index)`
zero value is the structure with all defaults. -/
structure index where
  Name : String := ""
  HrefTemplate : String := ""
  Provider : String := ""
  IndexType : String := ""
  CaseSensitive : Bool := false
  HrefIndex : String := ""
deriving Repr, DecidableEq

/-- Embeds `(*index).populate`: copies the response fields and sets
`CaseSensitive` to `false` exactly when the server's `to_lower_case`
string equals `"true"`. -/
def index.populate (ni : index) (res : indexResponse) : index :=
  { ni with
    HrefTemplate := res.HrefTemplate
    Provider := res.Provider
    IndexType := res.IndexType
    CaseSensitive := if res.LowerCase = "true" then false else true }

/-- A JSON value, as far as the create-index request body needs. -/
inductive Json where
  | str : String → Json
  | obj : List (String × Json) → Json
deriving Repr

/-- Embeds the local struct `c` of `createIndex` (`index.go`). Its Go
field `Type` is spelled `Typ` here because `Type` is reserved in Lean.
Go JSON tags: `type,omitempty` and `provider,omitempty`. -/
structure c where
  Typ : String := ""
  Provider : String := ""
deriving Repr, DecidableEq

/-- Embeds the local struct `p` of `createIndex` (`index.go`).
Go JSON tags: `name` and `config,omitempty`. -/
structure p where
  Name : String := ""
  Config : c := {}
deriving Repr, DecidableEq

/-- Embeds the payload construction of `createIndex`: `Config` is
assigned only when `idxType` or `provider` is non-empty, otherwise it
stays at the zero value of struct `c`. -/
def mkCreatePayload (name idxType provider : String) : p :=
  let payload : p := { Name := name }
  if idxType ≠ "" ∨ provider ≠ "" then
    { payload with Config := { Typ := idxType, Provider := provider } }
  else
    payload

/-- Modelled from Go `encoding/json` semantics for struct `c`: both
fields are strings tagged `omitempty`, so each is emitted exactly when
it is non-empty. -/
def marshalC (cfg : c) : List (String × Json) :=
  (if cfg.Typ = "" then [] else [("type", Json.str cfg.Typ)]) ++
    (if cfg.Provider = "" then [] else [("provider", Json.str cfg.Provider)])

/-- Modelled from Go `encoding/json` semantics for struct `p`: `name` is
always emitted; `config` is tagged `omitempty`, but `omitempty` never
considers a struct-typed value empty, so the `config` key is always
emitted — as the empty object `{}` when both of its members are blank. -/
def marshalP (pl : p) : List (String × Json) :=
  [("name", Json.str pl.Name), ("config", Json.obj (marshalC pl.Config))]

/-- The serialized body of the index-creation request, as `createIndex`
hands it to the transport. -/
def createRequestBody (name idxType provider : String) : List (String × Json) :=
  marshalP (mkCreatePayload name idxType provider)

/-- Embeds `Database.createIndex` (`index.go`). The request declares
`ExpectedStatus: 201`, so `restclient.Do` returns an error both on a
transport failure and on any other status; in both cases `createIndex`
returns the partially initialised descriptor alongside the error. On 201
it populates the descriptor from the decoded body and sets `HrefIndex`
to the collection endpoint. -/
def createIndex (href name idxType provider : String) (o : TOutcome indexResponse) :
    index × Option Err :=
  let idx0 : index := { Name := name }
  match o with
  | .transportErr e => (idx0, some (.transport e))
  | .reply status body =>
    if status = 201 then
      ({ idx0.populate body with HrefIndex := href }, none)
    else
      (idx0, some (.unexpectedStatus status))

/-- Embeds `Database.CreateNodeIndex`: on any error from `createIndex`
it returns `(nil, err)`; on success it wraps the descriptor (the
`NodeIndex` wrapper adds no fields, so the model reuses `index`). -/
def CreateNodeIndex (href name idxType provider : String) (o : TOutcome indexResponse) :
    Option index × Option Err :=
  match createIndex href name idxType provider o with
  | (_, some e) => (none, some e)
  | (idx, none) => (some idx, none)

/-- Embeds `Database.index` (`index.go`), the get-by-name operation
(named `indexGet` here because `index` is the descriptor type). Note two
facts visible in the source: the GET request sets no `Result` field, so
the freshly allocated `resp` is never decoded into and `populate` reads
the zero-valued `indexResponse` (the reply body is ignored); and
`HrefIndex` is never assigned on any path. -/
def indexGet (href name : String) (o : TOutcome indexResponse) : index × Option Err :=
  let idx0 : index := { Name := name }
  let rawurl := join [href, name]
  match parseRequestURI rawurl with
  | none => (idx0, some (.parseErr rawurl))
  | some _u =>
    match o with
    | .transportErr e => (idx0, some (.transport e))
    | .reply status _body =>
      if status = 200 then (idx0.populate {}, none)
      else if status = 404 then (idx0, some .notFound)
      else (idx0, some .badResponse)

/-- Embeds `Database.NodeIndex`: on any error from the internal get it
returns `(nil, err)`, otherwise the wrapped descriptor. -/
def NodeIndex (href name : String) (o : TOutcome indexResponse) :
    Option index × Option Err :=
  match indexGet href name o with
  | (_, some e) => (none, some e)
  | (idx, none) => (some idx, none)

/-- Embeds `Database.indexes` (`index.go`): decodes a name-to-response
mapping (modelled as an association list), builds one descriptor per
entry with `Name` taken from the mapping key, and `populate`s it from
the mapped body. Transport errors pass through; a non-200 status is
`BadResponse`. `HrefIndex` is not assigned here either. -/
def indexes (href : String) (o : TOutcome (List (String × indexResponse))) :
    List index × Option Err :=
  match o with
  | .transportErr e => ([], some (.transport e))
  | .reply status body =>
    if status = 200 then
      (body.map (fun nr => index.populate { Name := nr.1 } nr.2), none)
    else
      ([], some .badResponse)

/-- Embeds `Database.NodeIndexes`: on any error from `indexes` it
returns `(nil, err)`, otherwise the wrapped slice. -/
def NodeIndexes (href : String) (o : TOutcome (List (String × indexResponse))) :
    Option (List index) × Option Err :=
  match indexes href o with
  | (_, some e) => (none, some e)
  | (l, none) => (some l, none)

/-- Embeds `(*index).uri` (`index.go`): it joins `HrefIndex` and `Name`,
parses the result, and returns `u.String(), err` — the string is built
from `u` before `err` is examined, so a failed parse (nil `u`)
dereferences a nil pointer and panics; a successful parse returns the
URL with a nil error. -/
def index.uri (idx : index) : GoResult String :=
  match parseRequestURI (join [idx.HrefIndex, idx.Name]) with
  | none => .panics
  | some u => .ok u

/-- Embeds `(*index).Delete`: composes the self URI (panicking if `uri`
panics), then one DELETE round trip; 204 is success, a transport error
passes through, any other status is `BadResponse`. -/
def index.Delete (idx : index) (o : TOutcome Unit) : GoResult (Option Err) :=
  match idx.uri with
  | .panics => .panics
  | .ok _uri =>
    match o with
    | .transportErr e => .ok (some (.transport e))
    | .reply status _ =>
      if status = 204 then .ok none else .ok (some .badResponse)

/-- Modelled from the spec: the `Node` entity handle (defined outside
`index.go`) — an integer identifier and a canonical self-link. -/
structure Node where
  HrefSelf : String := ""
  Id : Int := 0
deriving Repr, DecidableEq

/-- Modelled from the spec: the decoded representation of one entity in
a lookup reply, carrying its identifier and self-link (the concrete
`nodeResponse` struct lives outside `index.go`). -/
structure nodeResponse where
  HrefSelf : String := ""
  Id : Int := 0
deriving Repr, DecidableEq

/-- Modelled from the spec: hydrating a `Node` from its response sets
its self-link and identifier. -/
def Node.populate (n : Node) (r : nodeResponse) : Node :=
  { n with HrefSelf := r.HrefSelf, Id := r.Id }

/-- Embeds `(*index).Add`: composes the self URI (panicking if `uri`
panics), sends the association request `{uri, key, value}`; 201 is
success, a transport error passes through, any other status is
`BadResponse`. -/
def index.Add (idx : index) (n : Node) (key value : String) (o : TOutcome Unit) :
    GoResult (Option Err) :=
  match idx.uri with
  | .panics => .panics
  | .ok _uri =>
    match o with
    | .transportErr e => .ok (some (.transport e))
    | .reply status _ =>
      if status = 201 then .ok none else .ok (some .badResponse)

/-- Models Go's `strconv.Itoa` applied to the entity identifier. -/
def itoa (n : Int) : String := toString n

/-- Embeds the URL composition of `(*index).Remove` (`index.go` lines
257-269): starting from the self URI, the `key`/`value` fragments are
joined only when `key` is non-empty (so with an empty `key` a non-empty
`value` is silently dropped, never rejected), and the entity's
identifier is appended in every case. -/
def index.removeUri (idx : index) (n : Node) (key value : String) : GoResult String :=
  match idx.uri with
  | .panics => .panics
  | .ok u =>
    let u1 := if key ≠ "" then join [u, key, value] else u
    .ok (join [u1, itoa n.Id])

/-- Embeds `(*index).Remove`: composes the deletion URL via
`index.removeUri`, then one DELETE round trip; 204 is success, a
transport error passes through, any other status is `BadResponse`. -/
def index.Remove (idx : index) (n : Node) (key value : String) (o : TOutcome Unit) :
    GoResult (Option Err) :=
  match idx.removeUri n key value with
  | .panics => .panics
  | .ok _uri =>
    match o with
    | .transportErr e => .ok (some (.transport e))
    | .reply status _ =>
      if status = 204 then .ok none else .ok (some .badResponse)

/-- Embeds Go's `NodeMap` (`map[int]*Node`) as an association list whose
keys are kept unique; `nmSet` is map assignment, overwriting the entry
with the same key if one exists and appending otherwise. -/
abbrev NodeMap : Type := List (Int × Node)

/-- Go map assignment `nm[k] = v`: replace the entry with key `k`, or
append a new one. -/
def nmSet (nm : NodeMap) (k : Int) (v : Node) : NodeMap :=
  if nm.any (fun q => q.1 == k) then
    nm.map (fun q => if q.1 == k then (k, v) else q)
  else
    nm ++ [(k, v)]

/-- One iteration of the result loop shared by `Find` and `Query`: the
response element is hydrated into a `Node` and inserted keyed by its
identifier (`nm[n.Id()] = &n`). -/
def nmStep (nm : NodeMap) (r : nodeResponse) : NodeMap :=
  let n := Node.populate {} r
  nmSet nm n.Id n

/-- Embeds the result loop shared by `Find` and `Query`. -/
def buildNodeMap (resp : List nodeResponse) : NodeMap :=
  resp.foldl nmStep []

/-- Embeds `(*index).Find`: composes `selfUri/key/value` (panicking if
`uri` panics), re-parses it (this second parse failure is checked and
returned as an error, not a panic), then one GET round trip; on 200 the
decoded array is folded into a `NodeMap`, a transport error passes
through, any other status is `BadResponse`. -/
def index.Find (idx : index) (key value : String) (o : TOutcome (List nodeResponse)) :
    GoResult (NodeMap × Option Err) :=
  match idx.uri with
  | .panics => .panics
  | .ok rawurl0 =>
    let rawurl := join [rawurl0, key, value]
    match parseRequestURI rawurl with
    | none => .ok ([], some (.parseErr rawurl))
    | some _u =>
      match o with
      | .transportErr e => .ok ([], some (.transport e))
      | .reply status body =>
        if status = 200 then .ok (buildNodeMap body, none)
        else .ok ([], some .badResponse)

/-- Modelled from the `net/url` documentation: characters that
`QueryEscape` leaves unchanged. -/
def queryUnreserved (c : Char) : Bool :=
  c.isAlpha || c.isDigit || c = '-' || c = '_' || c = '.' || c = '~'

/-- Hex digits used in percent-escapes. -/
def hexChars : List Char := "0123456789ABCDEF".toList

/-- Percent-escape of one code unit. -/
def percentByte (n : Nat) : String :=
  "%" ++ String.mk [hexChars.getD (n / 16 % 16) '0', hexChars.getD (n % 16) '0']

/-- Modelled from the `net/url` documentation: `QueryEscape` keeps
unreserved characters, turns a space into `+`, and percent-escapes the
rest (modelled per code point, faithful on the ASCII range). -/
def queryEscape (s : String) : String :=
  s.toList.foldl
    (fun acc ch =>
      acc ++
        (if queryUnreserved ch then String.mk [ch]
         else if ch = ' ' then "+" else percentByte ch.toNat))
    ""

/-- Embeds `(*index).Query`: composes `selfUri?query=...` with the
caller's string URL-encoded (panicking if `uri` panics), re-parses it
(checked, returned as an error), then one GET round trip with the same
response handling as `Find`. -/
def index.Query (idx : index) (query : String) (o : TOutcome (List nodeResponse)) :
    GoResult (NodeMap × Option Err) :=
  match idx.uri with
  | .panics => .panics
  | .ok rawurl0 =>
    let rawurl := rawurl0 ++ "?" ++ "query=" ++ queryEscape query
    match parseRequestURI rawurl with
    | none => .ok ([], some (.parseErr rawurl))
    | some _u =>
      match o with
      | .transportErr e => .ok ([], some (.transport e))
      | .reply status body =>
        if status = 200 then .ok (buildNodeMap body, none)
        else .ok ([], some .badResponse)

/-! ### Helper lemmas -/

lemma toDigitsCore_len_ge (b : Nat) : ∀ (f n : Nat) (l : List Char),
    l.length + 1 ≤ (Nat.toDigitsCore b (f + 1) n l).length := by
  intro f
  induction f with
  | zero =>
    intro n l
    simp only [Nat.toDigitsCore]
    split <;> simp
  | succ f ih =>
    intro n l
    simp only [Nat.toDigitsCore]
    split
    · simp
    · calc l.length + 1 ≤ (Nat.digitChar (n % b) :: l).length + 1 := by simp
        _ ≤ _ := ih (n / b) (Nat.digitChar (n % b) :: l)

lemma nat_repr_ne_empty (n : Nat) : Nat.repr n ≠ "" := by
  have h := toDigitsCore_len_ge 10 n n []
  intro hc
  simp only [Nat.repr, Nat.toDigits, List.asString] at hc
  have hlen : (Nat.toDigitsCore 10 (n + 1) n []).length = 0 := by
    have hd := congrArg String.data hc
    simp at hd
    simp [hd]
  omega

lemma itoa_ne_empty (n : Int) : itoa n ≠ "" := by
  cases n with
  | ofNat m =>
    simp only [itoa, toString, Int.repr]
    exact nat_repr_ne_empty m
  | negSucc m =>
    simp only [itoa, toString, Int.repr]
    intro hc
    have hd := congrArg String.data hc
    simp [String.data_append] at hd

lemma str_append_eq_empty {a b : String} (h : a ++ b = "") : a = "" ∧ b = "" := by
  have hd := congrArg String.data h
  simp [String.data_append] at hd
  refine ⟨?_, ?_⟩
  · have ha : a.data = [] := hd.1
    cases a; simp_all
  · have hb : b.data = [] := hd.2
    cases b; simp_all

lemma str_append_ne_empty_left {a : String} (b : String) (h : a ≠ "") : a ++ b ≠ "" :=
  fun hc => h (str_append_eq_empty hc).1

lemma join_pair {a b : String} (ha : a ≠ "") (hb : b ≠ "") :
    join [a, b] = a ++ "/" ++ b := by
  simp [join, ha, hb]

lemma join_pair_right_empty {a : String} (ha : a ≠ "") : join [a, ""] = a := by
  simp [join, ha]

lemma join_triple {a b c : String} (ha : a ≠ "") (hb : b ≠ "") (hc : c ≠ "") :
    join [a, b, c] = a ++ "/" ++ b ++ "/" ++ c := by
  have h1 : b ++ "/" ++ c ≠ "" := str_append_ne_empty_left c (str_append_ne_empty_left "/" hb)
  have h2 : join [b, c] = b ++ "/" ++ c := join_pair hb hc
  rw [join, if_neg ha]
  simp only [h2, if_neg h1]
  simp [String.append_assoc]

lemma parseRequestURI_some {s u : String} (h : parseRequestURI s = some u) :
    u = s ∧ s ≠ "" := by
  unfold parseRequestURI at h
  split at h
  · rename_i hv
    simp only [Option.some.injEq] at h
    refine ⟨h.symm, ?_⟩
    intro hs
    subst hs
    exact absurd hv (by decide)
  · exact absurd h (by simp)

lemma uri_ok_ne_empty {idx : index} {u : String} (h : idx.uri = .ok u) : u ≠ "" := by
  unfold index.uri at h
  cases hp : parseRequestURI (join [idx.HrefIndex, idx.Name]) with
  | none => rw [hp] at h; exact absurd h (by simp)
  | some s =>
    rw [hp] at h
    simp only [GoResult.ok.injEq] at h
    obtain ⟨hs, hne⟩ := parseRequestURI_some hp
    rw [← h, hs]
    exact hne

lemma nmSet_keys (m : NodeMap) (k : Int) (v : Node) :
    (nmSet m k v).map Prod.fst =
      if k ∈ m.map Prod.fst then m.map Prod.fst else m.map Prod.fst ++ [k] := by
  unfold nmSet
  by_cases hmem : k ∈ m.map Prod.fst
  · have hany : m.any (fun q => q.1 == k) = true := by
      simp only [List.any_eq_true]
      obtain ⟨q, hq, hfst⟩ := List.mem_map.mp hmem
      exact ⟨q, hq, by simp [hfst]⟩
    simp only [hany, if_true, hmem]
    rw [List.map_map]
    apply List.map_congr_left
    intro q hq
    by_cases hk : q.1 == k
    · simp only [Function.comp_apply, if_pos hk]
      have hq1 : q.1 = k := by simpa using hk
      simp [hq1]
    · simp only [Function.comp_apply, if_neg hk]
  · have hany : m.any (fun q => q.1 == k) = false := by
      rw [List.any_eq_false]
      intro q hq hk
      exact hmem (List.mem_map.mpr ⟨q, hq, by simpa using hk⟩)
    simp only [hany, Bool.false_eq_true, if_false, hmem]
    simp

lemma nmStep_keys (m : NodeMap) (r : nodeResponse) :
    (nmStep m r).map Prod.fst =
      if r.Id ∈ m.map Prod.fst then m.map Prod.fst else m.map Prod.fst ++ [r.Id] := by
  unfold nmStep
  exact nmSet_keys m r.Id (Node.populate {} r)

lemma foldl_nmStep_mem (rs : List nodeResponse) : ∀ (m : NodeMap) (i : Int),
    i ∈ ((rs.foldl nmStep m).map Prod.fst) ↔
      i ∈ m.map Prod.fst ∨ ∃ r ∈ rs, r.Id = i := by
  induction rs with
  | nil => intro m i; simp
  | cons r rs ih =>
    intro m i
    rw [List.foldl_cons, ih, nmStep_keys]
    by_cases hmem : r.Id ∈ m.map Prod.fst
    · rw [if_pos hmem]
      constructor
      · rintro (hm | ⟨r', hr', hi⟩)
        · exact Or.inl hm
        · exact Or.inr ⟨r', List.mem_cons_of_mem r hr', hi⟩
      · rintro (hm | ⟨r', hr', hi⟩)
        · exact Or.inl hm
        · rcases List.mem_cons.mp hr' with rfl | hr''
          · exact Or.inl (hi ▸ hmem)
          · exact Or.inr ⟨r', hr'', hi⟩
    · rw [if_neg hmem]
      simp only [List.mem_append, List.mem_singleton]
      constructor
      · rintro ((hm | hi) | ⟨r', hr', hi⟩)
        · exact Or.inl hm
        · exact Or.inr ⟨r, List.mem_cons_self r rs, hi.symm⟩
        · exact Or.inr ⟨r', List.mem_cons_of_mem r hr', hi⟩
      · rintro (hm | ⟨r', hr', hi⟩)
        · exact Or.inl (Or.inl hm)
        · rcases List.mem_cons.mp hr' with rfl | hr''
          · exact Or.inl (Or.inr hi.symm)
          · exact Or.inr ⟨r', hr'', hi⟩

lemma foldl_nmStep_nodup (rs : List nodeResponse) : ∀ (m : NodeMap),
    (m.map Prod.fst).Nodup → ((rs.foldl nmStep m).map Prod.fst).Nodup := by
  induction rs with
  | nil => intro m h; simpa using h
  | cons r rs ih =>
    intro m h
    rw [List.foldl_cons]
    apply ih
    rw [nmStep_keys]
    by_cases hmem : r.Id ∈ m.map Prod.fst
    · rwa [if_pos hmem]
    · rw [if_neg hmem]
      simp [List.nodup_append, h, hmem]

lemma buildNodeMap_nodup (rs : List nodeResponse) :
    ((buildNodeMap rs).map Prod.fst).Nodup := by
  unfold buildNodeMap
  exact foldl_nmStep_nodup rs [] (by simp)

lemma buildNodeMap_mem (rs : List nodeResponse) (i : Int) :
    i ∈ (buildNodeMap rs).map Prod.fst ↔ ∃ r ∈ rs, r.Id = i := by
  unfold buildNodeMap
  rw [foldl_nmStep_mem]
  simp

lemma removeUri_ok {idx : index} {u : String} (h : idx.uri = .ok u) (n : Node)
    (key value : String) :
    idx.removeUri n key value =
      .ok (join [if key ≠ "" then join [u, key, value] else u, itoa n.Id]) := by
  unfold index.removeUri
  rw [h]

lemma join_triple_right_empty {a b : String} (ha : a ≠ "") (hb : b ≠ "") :
    join [a, b, ""] = a ++ "/" ++ b := by
  have h2 : join [b, ""] = b := join_pair_right_empty hb
  rw [join, if_neg ha]
  simp only [h2, if_neg hb]

/-! ### Claim theorems -/

/-- C1 (code bug): the claim says Create followed by Get round-trips
`Name`, `Provider`, and `IndexType`. The creation path does echo the
server-supplied provider/type, but the get-by-name path never decodes
the reply body (its request sets no `Result`), so the descriptor Get
returns always has empty `Provider` and `IndexType` — here concretely,
`"lucene"`/`"exact"` are lost even though the server echoes them. -/
theorem C1_get_loses_provider_and_type :
    ((CreateNodeIndex "http://h/idx" "people" "exact" "lucene"
        (.reply 201 { HrefTemplate := "http://h/idx/people/t", Provider := "lucene",
                      IndexType := "exact", LowerCase := "false" })).1.map index.Provider
      = some "lucene")
    ∧ ((NodeIndex "http://h/idx" "people"
        (.reply 200 { HrefTemplate := "http://h/idx/people/t", Provider := "lucene",
                      IndexType := "exact", LowerCase := "false" })).1
      = some { Name := "people", HrefTemplate := "", Provider := "", IndexType := "",
               CaseSensitive := true, HrefIndex := "" }) := by
  constructor
  · rfl
  · rfl

/-- C2 counterexample: Remove with empty `key` and non-empty `value` is
not rejected — no `InvalidArgument` check exists. At this concrete input
the deletion URL is composed as `selfUri/id` (the value is silently
dropped) and the round trip proceeds, succeeding on a 204. -/
theorem C2_remove_empty_key_not_rejected :
    (index.removeUri { Name := "people", HrefIndex := "http://h/idx" }
        { HrefSelf := "http://h/node/17", Id := 17 } "" "red"
      = .ok "http://h/idx/people/17")
    ∧ (index.Remove { Name := "people", HrefIndex := "http://h/idx" }
        { HrefSelf := "http://h/node/17", Id := 17 } "" "red" (.reply 204 ())
      = .ok none) := by
  constructor
  · rfl
  · rfl

/-- C2 amended: for every index whose self URI resolves, Remove with an
empty `key` and a non-empty `value` is not rejected locally; the value
is silently ignored, the deletion path is composed as `selfUri/id`, and
the request is issued — the call behaves exactly like Remove with both
`key` and `value` empty. -/
theorem C2_remove_empty_key_silently_ignores_value (idx : index) (n : Node)
    (value : String) (o : TOutcome Unit) (u : String) (h : idx.uri = .ok u) :
    idx.removeUri n "" value = .ok (join [u, itoa n.Id])
    ∧ idx.Remove n "" value o = idx.Remove n "" "" o := by
  have h1 : idx.removeUri n "" value = .ok (join [u, itoa n.Id]) := by
    rw [removeUri_ok h]
    simp
  have h2 : idx.removeUri n "" "" = .ok (join [u, itoa n.Id]) := by
    rw [removeUri_ok h]
    simp
  refine ⟨h1, ?_⟩
  unfold index.Remove
  rw [h1, h2]

/-- C2 amended, witness at a concrete input. -/
theorem C2_remove_empty_key_witness :
    index.removeUri { Name := "people", HrefIndex := "http://h/idx" }
        { HrefSelf := "http://h/node/17", Id := 17 } "" "red"
      = .ok (join ["http://h/idx/people", itoa (17 : Int)]) :=
  (C2_remove_empty_key_silently_ignores_value
      { Name := "people", HrefIndex := "http://h/idx" }
      { HrefSelf := "http://h/node/17", Id := 17 } "red" (.reply 204 ())
      "http://h/idx/people" (by decide)).1

/-- C3 (code bug): the claim says a descriptor returned by Get's success
path is resolved (`HrefIndex` joined with `Name` set and usable). In the
code the get-by-name path succeeds on a 200 but never assigns
`HrefIndex`, so the descriptor's base stays empty and `uri()` panics on
it, while the creation path does set `HrefIndex`. -/
theorem C3_get_descriptor_unresolved :
    ((indexGet "http://h/idx" "people" (.reply 200 {})).2 = none)
    ∧ ((indexGet "http://h/idx" "people" (.reply 200 {})).1.HrefIndex = "")
    ∧ (index.uri (indexGet "http://h/idx" "people" (.reply 200 {})).1 = .panics)
    ∧ ((createIndex "http://h/idx" "people" "exact" "lucene"
        (.reply 201 {})).1.HrefIndex = "http://h/idx") := by
  refine ⟨rfl, rfl, rfl, rfl⟩

/-- C4 (code bug): the claim says the `config` object is serialized only
when `idxType` or `provider` is non-empty. In Go, `omitempty` never
omits a struct-typed field, so the request body always carries a
`config` key — as the empty object when both are blank (first conjunct);
when values are supplied it carries them (second conjunct). -/
theorem C4_config_key_always_sent :
    (createRequestBody "people" "" ""
      = [("name", Json.str "people"), ("config", Json.obj [])])
    ∧ (createRequestBody "people" "exact" "lucene"
      = [("name", Json.str "people"),
         ("config", Json.obj [("type", Json.str "exact"),
                              ("provider", Json.str "lucene")])]) := by
  constructor
  · rfl
  · rfl

/-- C5: the populated descriptor's `CaseSensitive` field is `true`
exactly when the server's `to_lower_case` flag is `"false"` or absent
(decoded as the empty string), and `false` exactly when the flag is
`"true"`. -/
theorem C5_caseSensitive_negates_lower_flag (ni : index) (res : indexResponse)
    (h : res.LowerCase = "true" ∨ res.LowerCase = "false" ∨ res.LowerCase = "") :
    ((ni.populate res).CaseSensitive = true ↔
      (res.LowerCase = "false" ∨ res.LowerCase = ""))
    ∧ ((ni.populate res).CaseSensitive = false ↔ res.LowerCase = "true") := by
  rcases h with h | h | h <;> simp [index.populate, h]

/-- C5 witness: the spec's scenario — a 201 creation reply with
`to_lower_case:"false"` yields a descriptor with `CaseSensitive =
true`. -/
theorem C5_caseSensitive_witness :
    (({ Name := "people" } : index).populate
        { HrefTemplate := "http://h/idx/people/t", Provider := "lucene",
          IndexType := "exact", LowerCase := "false" }).CaseSensitive = true :=
  ((C5_caseSensitive_negates_lower_flag { Name := "people" }
      { HrefTemplate := "http://h/idx/people/t", Provider := "lucene",
        IndexType := "exact", LowerCase := "false" }
      (Or.inr (Or.inl rfl))).1).mpr (Or.inl rfl)

/-- C6: Remove composes the deletion path by a three-way branch — both
`key` and `value` non-empty gives `self/key/value/id`, `key` non-empty
with `value` empty gives `self/key/id`, both empty gives `self/id`, the
entity's integer identifier being appended in all three cases. -/
theorem C6_remove_three_way_path (idx : index) (n : Node) (key value u : String)
    (h : idx.uri = .ok u) :
    (key ≠ "" → value ≠ "" →
      idx.removeUri n key value
        = .ok (u ++ "/" ++ key ++ "/" ++ value ++ "/" ++ itoa n.Id))
    ∧ (key ≠ "" →
      idx.removeUri n key "" = .ok (u ++ "/" ++ key ++ "/" ++ itoa n.Id))
    ∧ (idx.removeUri n "" "" = .ok (u ++ "/" ++ itoa n.Id)) := by
  have hu : u ≠ "" := uri_ok_ne_empty h
  have hid : itoa n.Id ≠ "" := itoa_ne_empty n.Id
  refine ⟨?_, ?_, ?_⟩
  · intro hk hv
    rw [removeUri_ok h, if_pos hk, join_triple hu hk hv,
      join_pair (str_append_ne_empty_left value
        (str_append_ne_empty_left "/" (str_append_ne_empty_left key
          (str_append_ne_empty_left "/" hu)))) hid]
  · intro hk
    rw [removeUri_ok h, if_pos hk, join_triple_right_empty hu hk,
      join_pair (str_append_ne_empty_left key
        (str_append_ne_empty_left "/" hu)) hid]
  · rw [removeUri_ok h]
    simp only [ne_eq, not_true_eq_false, if_false, join_pair hu hid]

/-- C6 witness: the three branches at concrete inputs. -/
theorem C6_remove_three_way_witness :
    (index.removeUri { Name := "people", HrefIndex := "http://h/idx" }
        { HrefSelf := "http://h/node/17", Id := 17 } "color" "red"
      = .ok ("http://h/idx/people" ++ "/" ++ "color" ++ "/" ++ "red" ++ "/"
          ++ itoa (17 : Int)))
    ∧ (index.removeUri { Name := "people", HrefIndex := "http://h/idx" }
        { HrefSelf := "http://h/node/17", Id := 17 } "color" ""
      = .ok ("http://h/idx/people" ++ "/" ++ "color" ++ "/" ++ itoa (17 : Int)))
    ∧ (index.removeUri { Name := "people", HrefIndex := "http://h/idx" }
        { HrefSelf := "http://h/node/17", Id := 17 } "" ""
      = .ok ("http://h/idx/people" ++ "/" ++ itoa (17 : Int))) := by
  have t := C6_remove_three_way_path { Name := "people", HrefIndex := "http://h/idx" }
    { HrefSelf := "http://h/node/17", Id := 17 } "color" "red" "http://h/idx/people"
    (by decide)
  exact ⟨t.1 (by decide) (by decide), t.2.1 (by decide), t.2.2⟩

/-- C7: for a Get that reaches the transport, a 200 reply succeeds, a
404 reply yields exactly `NotFound`, any other status yields exactly
`BadResponse`, and a transport-level failure is passed through
unchanged. -/
theorem C7_get_status_classification (href name e : String) (status : Nat)
    (body : indexResponse) (u : String)
    (h : parseRequestURI (join [href, name]) = some u) :
    (indexGet href name (.transportErr e) = ({ Name := name }, some (.transport e)))
    ∧ ((indexGet href name (.reply 200 body)).2 = none)
    ∧ ((indexGet href name (.reply 404 body)).2 = some .notFound)
    ∧ (status ≠ 200 → status ≠ 404 →
      (indexGet href name (.reply status body)).2 = some .badResponse) := by
  refine ⟨?_, ?_, ?_, fun h200 h404 => ?_⟩
  · simp [indexGet, h]
  · simp [indexGet, h]
  · simp [indexGet, h]
  · simp [indexGet, h, h200, h404]

/-- C7 witness: concrete transport pass-through and a 500 classified as
`BadResponse`. -/
theorem C7_get_status_witness :
    (indexGet "http://h/idx" "people" (.transportErr "boom")
      = ({ Name := "people" }, some (.transport "boom")))
    ∧ ((indexGet "http://h/idx" "people" (.reply 500 {})).2 = some .badResponse) := by
  have t := C7_get_status_classification "http://h/idx" "people" "boom" 500 {}
    "http://h/idx/people" (by decide)
  exact ⟨t.1, t.2.2.2 (by decide) (by decide)⟩

/-- C8: a successful Find returns the fold of the reply array into a
map keyed by entity identifier; the key list is nodup, and an identifier
is present exactly when some reply element carries it — duplicate
identifiers collapse to a single entry. -/
theorem C8_find_result_keys_unique (idx : index) (key value : String)
    (body : List nodeResponse) (u : String)
    (h1 : idx.uri = .ok u)
    (h2 : validRequestURI (join [u, key, value]) = true) :
    idx.Find key value (.reply 200 body) = .ok (buildNodeMap body, none)
    ∧ ((buildNodeMap body).map Prod.fst).Nodup
    ∧ (∀ i : Int, i ∈ (buildNodeMap body).map Prod.fst ↔ ∃ r ∈ body, r.Id = i) := by
  refine ⟨?_, buildNodeMap_nodup body, fun i => buildNodeMap_mem body i⟩
  unfold index.Find
  rw [h1]
  simp [parseRequestURI, h2]

/-- C8 witness: a reply listing the same identifier twice collapses to
one entry. -/
theorem C8_find_result_witness :
    (index.Find { Name := "people", HrefIndex := "http://h/idx" } "color" "red"
        (.reply 200 [{ HrefSelf := "http://h/node/1", Id := 1 },
                     { HrefSelf := "http://h/node/1b", Id := 1 }])
      = .ok (buildNodeMap [{ HrefSelf := "http://h/node/1", Id := 1 },
                           { HrefSelf := "http://h/node/1b", Id := 1 }], none))
    ∧ ((buildNodeMap [{ HrefSelf := "http://h/node/1", Id := 1 },
                      { HrefSelf := "http://h/node/1b", Id := 1 }]).map Prod.fst).Nodup := by
  have t := C8_find_result_keys_unique { Name := "people", HrefIndex := "http://h/idx" }
    "color" "red"
    [{ HrefSelf := "http://h/node/1", Id := 1 }, { HrefSelf := "http://h/node/1b", Id := 1 }]
    "http://h/idx/people" (by decide) (by decide)
  exact ⟨t.1, t.2.1⟩

/-- C9: when `HrefIndex` joined with `Name` does not parse as a request
URI, `uri()` calls `u.String()` on the nil URL instead of returning the
error first, so the helper — and with it Delete, Add, Remove, Find, and
Query — panics rather than returning an error. -/
theorem C9_malformed_selfuri_panics (idx : index) (n : Node)
    (key value query : String) (o : TOutcome Unit) (o2 : TOutcome (List nodeResponse))
    (h : parseRequestURI (join [idx.HrefIndex, idx.Name]) = none) :
    idx.uri = .panics
    ∧ idx.Delete o = .panics
    ∧ idx.Add n key value o = .panics
    ∧ idx.Remove n key value o = .panics
    ∧ idx.Find key value o2 = .panics
    ∧ idx.Query query o2 = .panics := by
  have hu : idx.uri = .panics := by
    unfold index.uri
    rw [h]
  refine ⟨hu, ?_, ?_, ?_, ?_, ?_⟩ <;>
    simp only [index.Delete, index.Add, index.Remove, index.removeUri, index.Find,
      index.Query, hu]

/-- C9 witness: a descriptor with an empty base (as Get returns) joins
to a scheme-less, non-absolute string, and the operations panic on
it. -/
theorem C9_malformed_selfuri_witness :
    index.uri { Name := "people", HrefIndex := "" } = .panics
    ∧ index.Delete { Name := "people", HrefIndex := "" } (.reply 204 ()) = .panics := by
  have t := C9_malformed_selfuri_panics { Name := "people", HrefIndex := "" } {}
    "k" "v" "q" (.reply 204 ()) (.reply 200 []) (by decide)
  exact ⟨t.1, t.2.1⟩

/-- C10: whenever the internal `createIndex`, `indexGet`, or `indexes`
operation reports an error, the public wrapper returns the nil
descriptor (or nil slice) together with that error — a caller never
sees a partially populated descriptor alongside a non-nil error. -/
theorem C10_wrappers_nil_with_error :
    (∀ (href name idxType provider : String) (o : TOutcome indexResponse) (e : Err),
      (createIndex href name idxType provider o).2 = some e →
        CreateNodeIndex href name idxType provider o = (none, some e))
    ∧ (∀ (href name : String) (o : TOutcome indexResponse) (e : Err),
      (indexGet href name o).2 = some e → NodeIndex href name o = (none, some e))
    ∧ (∀ (href : String) (o : TOutcome (List (String × indexResponse))) (e : Err),
      (indexes href o).2 = some e → NodeIndexes href o = (none, some e)) := by
  refine ⟨?_, ?_, ?_⟩
  · intro href name idxType provider o e h
    unfold CreateNodeIndex
    rcases hm : createIndex href name idxType provider o with ⟨idx, err⟩
    rw [hm] at h
    simp only at h
    rw [h]
  · intro href name o e h
    unfold NodeIndex
    rcases hm : indexGet href name o with ⟨idx, err⟩
    rw [hm] at h
    simp only at h
    rw [h]
  · intro href o e h
    unfold NodeIndexes
    rcases hm : indexes href o with ⟨l, err⟩
    rw [hm] at h
    simp only at h
    rw [h]

/-- C10 witness: each wrapper at a concrete erroring outcome. -/
theorem C10_wrappers_witness :
    (CreateNodeIndex "http://h/idx" "people" "" "" (.reply 500 {})
      = (none, some (.unexpectedStatus 500)))
    ∧ (NodeIndex "http://h/idx" "people" (.transportErr "boom")
      = (none, some (.transport "boom")))
    ∧ (NodeIndexes "http://h/idx" (.reply 500 []) = (none, some .badResponse)) := by
  have t := C10_wrappers_nil_with_error
  exact ⟨t.1 "http://h/idx" "people" "" "" (.reply 500 {}) (.unexpectedStatus 500)
      (by decide),
    t.2.1 "http://h/idx" "people" (.transportErr "boom") (.transport "boom") (by decide),
    t.2.2 "http://h/idx" (.reply 500 []) .badResponse (by decide)⟩

end Neo4j
